import Mathlib

/-!
Verification development for the `python_crawler` repository
(`src/image_crawler.py`).

The crawler's URL handling is built on `urllib.parse` (CPython 3.11), so this
file first embeds the relevant fragment of `urllib.parse` (`urlsplit`,
`urlparse`, `urlunsplit`, `urlunparse`, `urljoin`) over `List Char`, then the
crawler's own functions (`is_valid_url`, `get_absolute_url`, `extract_links`,
`extract_images`, `has_next_page`, `go_to_next_page`, `generate_html_report`,
`crawl`, `__init__`) as pure functions over an abstract site/renderer model.

Conventions: Python strings are `String`/`List Char` (ASCII fragment; the
non-ASCII NFKC netloc check of `urllib.parse._checknetloc` is a no-op on
ASCII netlocs and is omitted); Python `None`-or-string values are
`Option String`; code that can raise returns `Except PyErr _`.
-/

deriving instance DecidableEq for Except

namespace Crawler

/-- The Python exception classes the embedded code can raise. -/
inductive PyErr where
  | valueError
  | attributeError
  /-- a plain `Exception`, as raised by `setup_driver` failure -/
  | exception
deriving DecidableEq, Repr

/-- Python strings, modelled as lists of characters. -/
abbrev Chars := List Char

/-! ### Character classes used by `urllib.parse` -/

def isAsciiAlpha (c : Char) : Bool :=
  ('a' ≤ c && c ≤ 'z') || ('A' ≤ c && c ≤ 'Z')

def isAsciiDigit (c : Char) : Bool :=
  '0' ≤ c && c ≤ '9'

def isHexAsciiDigit (c : Char) : Bool :=
  isAsciiDigit c || ('a' ≤ c && c ≤ 'f') || ('A' ≤ c && c ≤ 'F')

/-- Membership in `urllib.parse.scheme_chars`. -/
def isSchemeChar (c : Char) : Bool :=
  isAsciiAlpha c || isAsciiDigit c || c == '+' || c == '-' || c == '.'

/-- Membership in `urllib.parse._WHATWG_C0_CONTROL_OR_SPACE`
(`chr(0)` … `chr(0x20)`). -/
def isC0OrSpace (c : Char) : Bool :=
  c.toNat ≤ 0x20

/-- Membership in `urllib.parse._UNSAFE_URL_BYTES_TO_REMOVE`. -/
def isUnsafeUrlByte (c : Char) : Bool :=
  c == '\t' || c == '\r' || c == '\n'

/-- `url.lstrip(_WHATWG_C0_CONTROL_OR_SPACE)` followed by removal of
`_UNSAFE_URL_BYTES_TO_REMOVE`, as done at the top of `urlsplit`. -/
def cleanUrl (l : Chars) : Chars :=
  (l.dropWhile isC0OrSpace).filter (fun c => !isUnsafeUrlByte c)

/-! ### List-of-characters string primitives -/

/-- Split at the first occurrence of `sep` (`str.split(sep, 1)` when it
occurs); `none` when `sep` does not occur. -/
def splitOnce (sep : Char) : Chars → Option (Chars × Chars)
  | [] => none
  | c :: rest =>
    if c == sep then some ([], rest)
    else
      match splitOnce sep rest with
      | some (a, b) => some (c :: a, b)
      | none => none

/-- Split at the last occurrence of `sep`; `none` when `sep` does not occur.
When `some (a, b)` is returned, the input is `a ++ sep :: b` and `b` is
`sep`-free. -/
def splitLast (sep : Char) (l : Chars) : Option (Chars × Chars) :=
  match splitOnce sep l.reverse with
  | some (rb, ra) => some (ra.reverse, rb.reverse)
  | none => none

/-- `str.split(sep)` (always returns a nonempty list of parts). -/
def splitAll (sep : Char) : Chars → List Chars
  | [] => [[]]
  | c :: rest =>
    let r := splitAll sep rest
    if c == sep then [] :: r
    else
      match r with
      | h :: t => (c :: h) :: t
      | [] => [[c]]

/-! ### Scheme tables of `urllib.parse` (CPython 3.11) -/

def usesRelative : List Chars :=
  ["", "ftp", "http", "gopher", "nntp", "imap",
   "wais", "file", "https", "shttp", "mms",
   "prospero", "rtsp", "rtsps", "rtspu", "sftp",
   "svn", "svn+ssh", "ws", "wss"].map String.toList

def usesNetloc : List Chars :=
  ["", "ftp", "http", "gopher", "nntp", "telnet",
   "imap", "wais", "file", "mms", "https", "shttp",
   "snews", "prospero", "rtsp", "rtsps", "rtspu", "rsync",
   "svn", "svn+ssh", "sftp", "nfs", "git", "git+ssh",
   "ws", "wss"].map String.toList

def usesParams : List Chars :=
  ["", "ftp", "hdl", "prospero", "http", "imap",
   "https", "shttp", "rtsp", "rtsps", "rtspu", "sip",
   "sips", "mms", "sftp", "tel"].map String.toList

/-! ### `urlsplit` / `urlparse` -/

/-- Scheme detection of `urlsplit`: `i = url.find(':')`, accepted when
`i > 0`, `url[0]` is an ASCII letter and every character of `url[:i]` is a
scheme character; the scheme is lowercased and the rest returned. -/
def splitScheme (l : Chars) : Option (Chars × Chars) :=
  match splitOnce ':' l with
  | none => none
  | some (pre, rest) =>
    match pre with
    | [] => none
    | c :: _ =>
      if isAsciiAlpha c && pre.all isSchemeChar then
        some (pre.map Char.toLower, rest)
      else none

def isNetlocDelim (c : Char) : Bool :=
  c == '/' || c == '?' || c == '#'

/-- `urllib.parse._splitnetloc` (after the leading `//` has been dropped):
the netloc runs until the first of `/`, `?`, `#`. -/
def splitNetloc (l : Chars) : Chars × Chars :=
  (l.takeWhile (fun c => !isNetlocDelim c), l.dropWhile (fun c => !isNetlocDelim c))

/-- `netloc.partition('[')[2].partition(']')[0]`: the content of the first
bracket pair. -/
def bracketedHostOf (n : Chars) : Chars :=
  ((n.dropWhile (fun c => !(c == '['))).drop 1).takeWhile (fun c => !(c == ']'))

/-- `urllib.parse._check_bracketed_host`. The IPvFuture branch follows the
regex `\Av[0-9A-Fa-f]+\..+\Z` exactly. The `ipaddress.ip_address` branch is
approximated: the content must be nonempty, contain a colon (so a bracketed
IPv4 address is rejected, as in CPython) and consist of hexadecimal digits,
colons and dots. -/
def checkBracketedHost (h : Chars) : Except PyErr Unit :=
  match h with
  | 'v' :: rest =>
    let hexPart := rest.takeWhile isHexAsciiDigit
    let after := rest.dropWhile isHexAsciiDigit
    match after with
    | '.' :: tl =>
      if hexPart ≠ [] ∧ tl ≠ [] then .ok () else .error .valueError
    | _ => .error .valueError
  | _ =>
    if h ≠ [] ∧ ':' ∈ h ∧ h.all (fun c => isHexAsciiDigit c || c == ':' || c == '.') then
      .ok ()
    else .error .valueError

/-- Result of `urlsplit`. -/
structure SplitResult where
  scheme : Chars
  netloc : Chars
  path : Chars
  query : Chars
  fragment : Chars
deriving DecidableEq, Repr

/-- `urllib.parse.urlsplit` (CPython 3.11.6), specialised to
`allow_fragments=True`. The default-`scheme` argument is passed unchanged:
at every call site in this development it is either empty or a scheme
produced by `urlsplitE` itself, on which CPython's cleaning is the identity.
`_checknetloc` is a no-op on ASCII netlocs and is omitted. -/
def urlsplitE (url : Chars) (scheme : Chars) : Except PyErr SplitResult := do
  let url := cleanUrl url
  let (scheme, url) :=
    match splitScheme url with
    | some (s, rest) => (s, rest)
    | none => (scheme, url)
  let (netloc, url) ←
    match url with
    | '/' :: '/' :: rest =>
      let (n, u) := splitNetloc rest
      if ('[' ∈ n ∧ ']' ∉ n) ∨ (']' ∈ n ∧ '[' ∉ n) then
        throw PyErr.valueError
      else if '[' ∈ n ∧ ']' ∈ n then do
        checkBracketedHost (bracketedHostOf n)
        pure (n, u)
      else
        pure (n, u)
    | _ => pure (([] : Chars), url)
  let (url, fragment) :=
    match splitOnce '#' url with
    | some (a, b) => (a, b)
    | none => (url, ([] : Chars))
  let (url, query) :=
    match splitOnce '?' url with
    | some (a, b) => (a, b)
    | none => (url, ([] : Chars))
  return ⟨scheme, netloc, url, query, fragment⟩

/-- `urllib.parse._splitparams` (only called when `';' ∈ l`). -/
def splitParams (l : Chars) : Chars × Chars :=
  match splitLast '/' l with
  | some (a, b) =>
    match splitOnce ';' b with
    | some (b1, b2) => (a ++ '/' :: b1, b2)
    | none => (l, [])
  | none =>
    match splitOnce ';' l with
    | some (u1, u2) => (u1, u2)
    | none => (l, [])

/-- Result of `urlparse`. -/
structure ParseResult where
  scheme : Chars
  netloc : Chars
  path : Chars
  params : Chars
  query : Chars
  fragment : Chars
deriving DecidableEq, Repr

/-- `urllib.parse.urlparse` (CPython 3.11.6), `allow_fragments=True`. -/
def urlparseE (url : Chars) (scheme : Chars) : Except PyErr ParseResult := do
  let r ← urlsplitE url scheme
  let (path, params) :=
    if r.scheme ∈ usesParams ∧ ';' ∈ r.path then splitParams r.path
    else (r.path, ([] : Chars))
  return ⟨r.scheme, r.netloc, path, params, r.query, r.fragment⟩

/-! ### `urlunsplit` / `urlunparse` / `urljoin` -/

/-- `urllib.parse.urlunsplit` (CPython 3.11.6). -/
def urlunsplitL (scheme netloc path query fragment : Chars) : Chars :=
  let url :=
    if netloc ≠ [] ∨ (scheme ≠ [] ∧ scheme ∈ usesNetloc ∧ path.take 2 ≠ ['/', '/']) then
      let url := if path ≠ [] ∧ path.take 1 ≠ ['/'] then '/' :: path else path
      '/' :: '/' :: (netloc ++ url)
    else path
  let url := if scheme ≠ [] then scheme ++ ':' :: url else url
  let url := if query ≠ [] then url ++ '?' :: query else url
  if fragment ≠ [] then url ++ '#' :: fragment else url

/-- `urllib.parse.urlunparse` (CPython 3.11.6). -/
def urlunparseL (scheme netloc path params query fragment : Chars) : Chars :=
  let path := if params ≠ [] then path ++ ';' :: params else path
  urlunsplitL scheme netloc path query fragment

/-- Keep the first and last element, filter empty parts in the middle
(`segments[1:-1] = filter(None, segments[1:-1])`). -/
def filterMiddle (l : List Chars) : List Chars :=
  match l with
  | [] => []
  | [x] => [x]
  | x :: rest =>
    match rest.reverse with
    | [] => [x]
    | y :: midRev => x :: (midRev.reverse.filter (fun s => s ≠ [])) ++ [y]

/-- The segment-resolution loop of `urljoin`: `..` pops (ignoring pops from
an empty list), `.` is skipped, everything else is appended. -/
def resolveSegs (segs : List Chars) : List Chars :=
  segs.foldl
    (fun acc seg =>
      if seg = ['.', '.'] then acc.dropLast
      else if seg = ['.'] then acc
      else acc ++ [seg])
    []

/-- `urllib.parse.urljoin` (CPython 3.11.6), `allow_fragments=True`. -/
def urljoinE (base url : Chars) : Except PyErr Chars := do
  if base = [] then return url
  if url = [] then return base
  let b ← urlparseE base []
  let u ← urlparseE url b.scheme
  if u.scheme ≠ b.scheme ∨ u.scheme ∉ usesRelative then return url
  if u.scheme ∈ usesNetloc ∧ u.netloc ≠ [] then
    return urlunparseL u.scheme u.netloc u.path u.params u.query u.fragment
  let netloc := if u.scheme ∈ usesNetloc then b.netloc else u.netloc
  if u.path = [] ∧ u.params = [] then
    let query := if u.query = [] then b.query else u.query
    return urlunparseL u.scheme netloc b.path b.params query u.fragment
  let baseParts :=
    let bp := splitAll '/' b.path
    if bp.getLastD [] ≠ [] then bp.dropLast else bp
  let segments :=
    if u.path.take 1 = ['/'] then splitAll '/' u.path
    else filterMiddle (baseParts ++ splitAll '/' u.path)
  let resolved := resolveSegs segments
  let resolved :=
    if segments.getLastD [] = ['.'] ∨ segments.getLastD [] = ['.', '.'] then
      resolved ++ [[]]
    else resolved
  let joined := List.intercalate ['/'] resolved
  let path := if joined = [] then ['/'] else joined
  return urlunparseL u.scheme netloc path u.params u.query u.fragment

/-! Sanity checks of the `urllib.parse` embedding against the behaviour of
CPython 3.11.6 on the same inputs. -/

example : urljoinE "a/c".toList "x".toList = .ok "a/x".toList := by decide
example : urljoinE "a/c".toList "a/x".toList = .ok "a/a/x".toList := by decide
example : urljoinE "a/c".toList "../../x".toList = .ok "x".toList := by decide
example : urljoinE "http://h/a".toList "b".toList = .ok "http://h/b".toList := by decide
example : urljoinE "http://h/a".toList "ftp://h/x".toList = .ok "ftp://h/x".toList := by
  decide
example : urljoinE "http://h/a".toList "//g/x".toList = .ok "http://g/x".toList := by
  decide
example : urljoinE "http://h/".toList "/i.png".toList = .ok "http://h/i.png".toList := by
  decide
example : urljoinE "#".toList "#".toList = .ok "".toList := by decide
example : urljoinE "http://h/a?p=1".toList "other".toList
    = .ok "http://h/other".toList := by decide
example : urlsplitE "http://[".toList [] = .error .valueError := by decide
example : urlsplitE "http://[::1]/x".toList [] =
    .ok ⟨"http".toList, "[::1]".toList, "/x".toList, [], []⟩ := by decide

/-! ### The crawler's URL classifier (`is_valid_url`, `get_absolute_url`) -/

/-- `str.startswith` over the `List Char` model. -/
def strStartsWith (s p : String) : Bool :=
  p.toList.isPrefixOf s.toList

/-- Python `str.lower` (ASCII fragment). -/
def strLower (s : String) : String :=
  String.mk (s.toList.map Char.toLower)

/-- Substring containment over `List Char`. -/
def listContainsSub (sub : Chars) : Chars → Bool
  | [] => sub.isPrefixOf []
  | c :: rest => sub.isPrefixOf (c :: rest) || listContainsSub sub rest

/-- Python substring containment `sub in s`. -/
def strContains (sub s : String) : Bool :=
  listContainsSub sub.toList s.toList

/-- `ImageCrawler.is_valid_url` (src/image_crawler.py:114-127). The `url`
argument is `None` or a string; `self.base_url` is modelled as a string
(`crawl` only runs when it is truthy). Raises propagate (there is no `try`
in this method): `urljoin`/`urlparse` can raise `ValueError` on a malformed
authority. -/
def is_valid_url (base : String) (url : Option String) : Except PyErr Bool := do
  match url with
  | none => return false
  | some u =>
    if u == "" || strStartsWith u "javascript:" || strStartsWith u "mailto:" then
      return false
    let resolved ←
      if strStartsWith u "http://" || strStartsWith u "https://" then pure u.toList
      else urljoinE base.toList u.toList
    let bp ← urlparseE base.toList []
    let up ← urlparseE resolved []
    return up.netloc == bp.netloc

/-- `ImageCrawler.get_absolute_url` (src/image_crawler.py:129-133). On `None`
the attribute access `url.startswith` raises `AttributeError`. -/
def get_absolute_url (base : String) (url : Option String) : Except PyErr String := do
  match url with
  | none => throw PyErr.attributeError
  | some u =>
    if strStartsWith u "http://" || strStartsWith u "https://" then
      return u
    else
      return String.mk (← urljoinE base.toList u.toList)

/-! ### The renderer/site model -/

/-- An element handle returned by the renderer, with the attributes the
crawler reads. `navTarget` is the URL the browser is at after clicking the
element; `none` means clicking does not change the URL, so the crawler's wait
for a URL change times out (the raised `TimeoutException` is caught by the
per-element handler). -/
structure Element where
  href : Option String
  displayed : Bool
  enabled : Bool
  navTarget : Option String
deriving DecidableEq, Repr

/-- An `img` element handle; `stale` models an element whose attribute access
raises (e.g. a stale element reference). -/
structure ImgElement where
  src : Option String
  dataSrc : Option String
  stale : Bool
deriving DecidableEq, Repr

/-- A rendered page: the elements the crawler's renderer queries return.
`nextButtons` is the result of the CSS query
`"{pager_selector}, a[rel='next'], .pagination-next, .next, .page-next"`;
`anchors` of `find_elements(By.TAG_NAME, 'a')`; `imgs` of
`find_elements(By.TAG_NAME, 'img')`. -/
structure Page where
  nextButtons : List Element
  anchors : List Element
  imgs : List ImgElement
deriving DecidableEq, Repr

/-- The site as seen through the renderer: a page per URL, `none` meaning the
load fails or times out. -/
def Site := String → Option Page

/-! ### Image harvesting and link extraction -/

/-- The Python expression
`img.get_attribute('src') or img.get_attribute('data-src')`: `or` falls
through to `data-src` on a falsy primary, i.e. both when `src` is absent
(`None`) and when it is the empty string. -/
def pySrcOr (img : ImgElement) : Option String :=
  match img.src with
  | some s => if s == "" then img.dataSrc else some s
  | none => img.dataSrc

/-- The per-`img` body of `ImageCrawler.extract_images` (lines 175-181):
`src = src or data-src; if src and is_valid_url(src): add(get_absolute_url(src))`,
with any per-element exception caught (stale element, `ValueError` from URL
parsing). The set is modelled as a deduplicated list in insertion order. -/
def addImage (base : String) (acc : List String) (img : ImgElement) : List String :=
  if img.stale then acc
  else
    match pySrcOr img with
    | none => acc
    | some s =>
      if s == "" then acc
      else
        match is_valid_url base (some s) with
        | .error _ => acc
        | .ok false => acc
        | .ok true =>
          match get_absolute_url base (some s) with
          | .error _ => acc
          | .ok u => if u ∈ acc then acc else acc ++ [u]

/-- `ImageCrawler.extract_images` (src/image_crawler.py:163-190). A page that
fails to load yields the empty set (the outer `except` returns `set()`). -/
def extract_images (site : Site) (base : String) (url : String) : List String :=
  match site url with
  | none => []
  | some pg => pg.imgs.foldl (addImage base) []

/-- The per-anchor body of `ImageCrawler.extract_links` (lines 146-152):
`if href and is_valid_url(href): add(get_absolute_url(href))`, with
per-element exceptions caught. -/
def addLink (base : String) (acc : List String) (a : Element) : List String :=
  match a.href with
  | none => acc
  | some h =>
    if h == "" then acc
    else
      match is_valid_url base (some h) with
      | .error _ => acc
      | .ok false => acc
      | .ok true =>
        match get_absolute_url base (some h) with
        | .error _ => acc
        | .ok u => if u ∈ acc then acc else acc ++ [u]

/-- `ImageCrawler.extract_links` (src/image_crawler.py:135-161). -/
def extract_links (site : Site) (base : String) (url : String) : List String :=
  match site url with
  | none => []
  | some pg => pg.anchors.foldl (addLink base) []

/-! ### Pagination -/

/-- `ImageCrawler.has_next_page` (src/image_crawler.py:192-215): true iff some
element matching the pager-selector union is displayed and enabled; any error
yields `False`. -/
def has_next_page (site : Site) (url : String) : Bool :=
  match site url with
  | none => false
  | some pg => pg.nextButtons.any (fun b => b.displayed && b.enabled)

/-- The button loop of `ImageCrawler.go_to_next_page` (lines 225-251): for the
first displayed+enabled button whose `href` is truthy and differs from the
current URL, click and wait for a URL change; on success return the new
`driver.current_url`, on a per-button exception (e.g. the wait timed out)
continue with the next button. -/
def clickNextButton (current : String) : List Element → Option String
  | [] => none
  | b :: rest =>
    if b.displayed && b.enabled then
      match b.href with
      | some h =>
        if h ≠ "" ∧ h ≠ current then
          match b.navTarget with
          | some t =>
            if t ≠ current then some t else clickNextButton current rest
          | none => clickNextButton current rest
        else clickNextButton current rest
      | none => clickNextButton current rest
    else clickNextButton current rest

/-- Membership in the heuristic CSS query
`a[href*='page'], a[href*='p='], a[href*='/2']` (line 254): an anchor whose
`href` attribute contains one of the three substrings. -/
def matchesHeuristicSelector (a : Element) : Bool :=
  match a.href with
  | none => false
  | some h => strContains "page" h || strContains "p=" h || strContains "/2" h

/-- The Python condition at line 258,
`if href and href != current_url and 'page' in href.lower() or 'p=' in href.lower():`,
with Python operator precedence:
`(href and href != current_url and 'page' in href.lower()) or ('p=' in href.lower())`. -/
def heuristicCond (current h : String) : Bool :=
  (h != "" && h != current && strContains "page" (strLower h))
    || strContains "p=" (strLower h)

/-- The heuristic-link loop of `ImageCrawler.go_to_next_page` (lines 253-266):
for the first matching anchor whose href satisfies `heuristicCond`, navigate
directly (`driver.get`) and return the new `driver.current_url`; per-link
exceptions (a `None` href making `href.lower()` raise, or a failed load) are
caught and the loop continues. -/
def followHeuristicLink (site : Site) (current : String) : List Element → Option String
  | [] => none
  | a :: rest =>
    match a.href with
    | none => followHeuristicLink site current rest
    | some h =>
      if heuristicCond current h then
        match site h with
        | some _ => some h
        | none => followHeuristicLink site current rest
      else followHeuristicLink site current rest

/-- `ImageCrawler.go_to_next_page` (src/image_crawler.py:217-272). -/
def go_to_next_page (site : Site) (current : String) : Option String :=
  match site current with
  | none => none
  | some pg =>
    match clickNextButton current pg.nextButtons with
    | some u => some u
    | none => followHeuristicLink site current (pg.anchors.filter matchesHeuristicSelector)

/-! ### The crawl loop -/

/-- Insertion-ordered union, modelling `set.update`. -/
def listUnion (acc l : List String) : List String :=
  l.foldl (fun acc u => if u ∈ acc then acc else acc ++ [u]) acc

/-- The mutable state of `ImageCrawler.crawl`'s loop: `visited_urls` (kept in
visit order, so it is also the sequence of pages rendered and harvested),
`image_urls`, `current_url` and `page_count`. -/
structure CrawlState where
  visited : List String
  images : List String
  current : String
  pageCount : Int
deriving DecidableEq, Repr

/-- Why the loop of `crawl` ended. -/
inductive StopReason where
  /-- the loop condition `max_pages == 0 or page_count < max_pages` failed -/
  | capReached
  /-- the loop condition `while current_url` failed (falsy URL) -/
  | emptyCursor
  /-- `if current_url in self.visited_urls: break` -/
  | revisit
  /-- neither the pager nor the fallback link scan produced a next URL -/
  | exhausted
deriving DecidableEq, Repr

inductive StepResult where
  | next (st : CrawlState)
  | stop (r : StopReason) (st : CrawlState)
deriving DecidableEq, Repr

/-- The fallback of `crawl` (lines 552-553): the same-domain links of the
current page that are not yet visited (the visited set already contains the
current URL at this point, line 535). -/
def fallbackCandidates (site : Site) (base : String) (st : CrawlState) : List String :=
  (extract_links site base st.current).filter
    (fun l => !(st.visited ++ [st.current]).contains l)

/-- The pagination attempt of one loop iteration (lines 544-549): when
`has_next_page` holds, `go_to_next_page` is asked for a next URL, accepted
only when truthy and distinct from the current URL. -/
def advancedNext (site : Site) (st : CrawlState) : Option String :=
  if has_next_page site st.current then
    match go_to_next_page site st.current with
    | some n => if n ≠ "" ∧ n ≠ st.current then some n else none
    | none => none
  else none

/-- One iteration of the `while` loop of `ImageCrawler.crawl`
(src/image_crawler.py:528-559), including the loop-condition check. -/
def crawlStep (site : Site) (base : String) (maxPages : Int) (st : CrawlState) :
    StepResult :=
  if st.current = "" then .stop .emptyCursor st
  else if ¬(maxPages = 0 ∨ st.pageCount < maxPages) then .stop .capReached st
  else if st.current ∈ st.visited then .stop .revisit st
  else
    let visited' := st.visited ++ [st.current]
    let images' := listUnion st.images (extract_images site base st.current)
    match advancedNext site st with
    | some n =>
      .next { visited := visited', images := images', current := n,
              pageCount := st.pageCount + 1 }
    | none =>
      match fallbackCandidates site base st with
      | [] => .stop .exhausted { st with visited := visited', images := images' }
      | l :: _ =>
        .next { visited := visited', images := images', current := l,
                pageCount := st.pageCount + 1 }

/-- The loop of `crawl`, fuel-indexed: the state after at most `fuel`
iterations. -/
def crawlLoop (site : Site) (base : String) (maxPages : Int) :
    Nat → CrawlState → CrawlState
  | 0, st => st
  | fuel + 1, st =>
    match crawlStep site base maxPages st with
    | .stop _ st' => st'
    | .next st' => crawlLoop site base maxPages fuel st'

/-- The initial state of the loop (lines 524-525). -/
def initState (base : String) : CrawlState :=
  { visited := [], images := [], current := base, pageCount := 0 }

/-! ### Report generation, cleanup and the full run -/

/-- The data embedded in the generated report. -/
structure ReportDoc where
  count : Nat
  urls : List String
deriving DecidableEq, Repr

/-- `ImageCrawler.generate_html_report` (src/image_crawler.py:274-514): with an
empty image set it logs a warning and returns without writing anything;
otherwise it writes a document built from `sorted(self.image_urls)` and their
count. The HTML template is not modelled beyond the data it embeds. -/
def generate_html_report (images : List String) : Option ReportDoc :=
  if images = [] then none
  else some ⟨images.length, images.insertionSort (· ≤ ·)⟩

/-- Observable outcome of one run of `ImageCrawler.crawl`. -/
structure RunResult where
  finalState : CrawlState
  report : Option ReportDoc
  cleanupCalled : Bool

/-- The loop run under a possible asynchronous abort (`KeyboardInterrupt` or
an unexpected exception caught by the `except` arms): `abortAt = some k`
aborts at the boundary before the `k`-th remaining iteration. Returns the
state reached and whether an abort happened. -/
def crawlLoopAb (site : Site) (base : String) (maxPages : Int) :
    Nat → Option Nat → CrawlState → CrawlState × Bool
  | _, some 0, st => (st, true)
  | 0, _, st => (st, false)
  | fuel + 1, ab, st =>
    match crawlStep site base maxPages st with
    | .stop _ st' => (st', false)
    | .next st' => crawlLoopAb site base maxPages fuel (ab.map (· - 1)) st'

/-- `ImageCrawler.crawl` (src/image_crawler.py:516-571). The early `return`
when `START_URL` is falsy (lines 518-520) happens before the `try/finally`,
so no cleanup runs on that path. Inside the `try`, report generation runs
after the loop, an abort jumps to an `except` arm (skipping the report), and
the `finally` always calls `cleanup`. -/
def crawl (site : Site) (cfg : Option String × Int) (fuel : Nat)
    (abortAt : Option Nat) : RunResult :=
  match cfg.1 with
  | none =>
    { finalState := initState "", report := none, cleanupCalled := false }
  | some b =>
    if b = "" then
      { finalState := initState "", report := none, cleanupCalled := false }
    else
      let (final, aborted) := crawlLoopAb site b cfg.2 fuel abortAt (initState b)
      let rep := if aborted then none else generate_html_report final.images
      { finalState := final, report := rep, cleanupCalled := true }

/-! ### Constructor (`__init__`) and environment parsing -/

def isPySpace (c : Char) : Bool :=
  c == ' ' || c.toNat == 9 || c.toNat == 10 || c.toNat == 13 || c.toNat == 11
    || c.toNat == 12

/-- Digit-string value for `int()`: nonempty, single underscores allowed only
between digits. -/
def digitsValAux (acc : Nat) : Chars → Option Nat
  | [] => some acc
  | '_' :: c :: rest =>
    if isAsciiDigit c then digitsValAux (acc * 10 + (c.toNat - 48)) rest else none
  | c :: rest =>
    if isAsciiDigit c then digitsValAux (acc * 10 + (c.toNat - 48)) rest else none

def digitsVal : Chars → Option Nat
  | [] => none
  | '_' :: _ => none
  | l => digitsValAux 0 l

/-- Python `int(s)` for a `str` argument (ASCII fragment): strip whitespace,
optional sign, then a nonempty digit string with single underscores between
digits. `none` models the `ValueError` for an invalid literal. -/
def pyInt? (s : String) : Option Int :=
  let l := ((s.toList.dropWhile isPySpace).reverse.dropWhile isPySpace).reverse
  match l with
  | '+' :: rest => (digitsVal rest).map Int.ofNat
  | '-' :: rest => (digitsVal rest).map (fun n => -(Int.ofNat n))
  | rest => (digitsVal rest).map Int.ofNat

/-- The configuration fields `ImageCrawler.__init__` computes. -/
structure InitConfig where
  baseUrl : Option String
  pagerSelector : String
  maxPages : Int
  timeout : Int
  userAgent : Option String
  driverInitialized : Bool
deriving DecidableEq, Repr

/-- The process environment, as read through `os.getenv`. -/
def Env := String → Option String

/-- `ImageCrawler.__init__` (src/image_crawler.py:28-62):
`int(os.getenv('MAX_PAGES', 10))` and `int(os.getenv('PAGE_LOAD_TIMEOUT', 30))`
run at lines 32-33, before session-directory creation and before
`setup_driver()` at line 61, and a `ValueError` there propagates out of the
constructor. `driverOk` abstracts whether WebDriver initialization (including
its documented second attempt with default Chrome) succeeds; when it fails
the constructor raises too (line 62 / line 112). -/
def crawlerInit (env : Env) (driverOk : Bool) : Except PyErr InitConfig := do
  let baseUrl := env "START_URL"
  let pagerSelector := (env "PAGER_SELECTOR").getD ".next-page"
  let maxPages ←
    match env "MAX_PAGES" with
    | some s =>
      match pyInt? s with
      | some n => pure n
      | none => throw PyErr.valueError
    | none => pure (10 : Int)
  let timeout ←
    match env "PAGE_LOAD_TIMEOUT" with
    | some s =>
      match pyInt? s with
      | some n => pure n
      | none => throw PyErr.valueError
    | none => pure (30 : Int)
  let userAgent := env "USER_AGENT"
  if driverOk then
    return ⟨baseUrl, pagerSelector, maxPages, timeout, userAgent, true⟩
  else
    throw PyErr.exception

/-! ### Structural lemmas about the `urllib.parse` embedding -/

theorem cleanUrl_cons_http (t : Chars) :
    cleanUrl ('h' :: 't' :: 't' :: 'p' :: ':' :: '/' :: '/' :: t)
      = 'h' :: 't' :: 't' :: 'p' :: ':' :: '/' :: '/'
          :: t.filter (fun c => !isUnsafeUrlByte c) := rfl

theorem cleanUrl_cons_https (t : Chars) :
    cleanUrl ('h' :: 't' :: 't' :: 'p' :: 's' :: ':' :: '/' :: '/' :: t)
      = 'h' :: 't' :: 't' :: 'p' :: 's' :: ':' :: '/' :: '/'
          :: t.filter (fun c => !isUnsafeUrlByte c) := rfl

theorem splitScheme_cons_http (t : Chars) :
    splitScheme ('h' :: 't' :: 't' :: 'p' :: ':' :: t) = some ("http".toList, t) := rfl

theorem splitScheme_cons_https (t : Chars) :
    splitScheme ('h' :: 't' :: 't' :: 'p' :: 's' :: ':' :: t)
      = some ("https".toList, t) := rfl

/-- With a nonempty `http` scheme, `urlunsplit` always emits a `http://`
prefix (CPython 3.11 inserts `//` whenever the scheme uses a netloc, or the
path itself starts with `//`). -/
theorem urlunsplitL_http_isPrefix (netloc path query fragment : Chars) :
    "http://".toList.isPrefixOf
      (urlunsplitL "http".toList netloc path query fragment) = true := by
  unfold urlunsplitL
  by_cases hc : netloc ≠ [] ∨
      ("http".toList ≠ [] ∧ "http".toList ∈ usesNetloc ∧ path.take 2 ≠ ['/', '/'])
  · rw [if_pos hc]
    split_ifs <;> simp_all [List.isPrefixOf, String.toList]
  · rw [if_neg hc]
    have h2 : path.take 2 = ['/', '/'] := by
      by_contra hne
      exact hc (Or.inr ⟨by decide, by decide, hne⟩)
    obtain ⟨t, rfl⟩ : ∃ t, path = '/' :: '/' :: t := by
      cases path with
      | nil => simp at h2
      | cons c p2 =>
        cases p2 with
        | nil => simp at h2
        | cons d t =>
          have hcd : c = '/' ∧ d = '/' := by
            simpa using h2
          exact ⟨t, by rw [hcd.1, hcd.2]⟩
    split_ifs <;> simp_all [List.isPrefixOf, String.toList]

theorem urlunsplitL_https_isPrefix (netloc path query fragment : Chars) :
    "https://".toList.isPrefixOf
      (urlunsplitL "https".toList netloc path query fragment) = true := by
  unfold urlunsplitL
  by_cases hc : netloc ≠ [] ∨
      ("https".toList ≠ [] ∧ "https".toList ∈ usesNetloc ∧ path.take 2 ≠ ['/', '/'])
  · rw [if_pos hc]
    split_ifs <;> simp_all [List.isPrefixOf, String.toList]
  · rw [if_neg hc]
    have h2 : path.take 2 = ['/', '/'] := by
      by_contra hne
      exact hc (Or.inr ⟨by decide, by decide, hne⟩)
    obtain ⟨t, rfl⟩ : ∃ t, path = '/' :: '/' :: t := by
      cases path with
      | nil => simp at h2
      | cons c p2 =>
        cases p2 with
        | nil => simp at h2
        | cons d t =>
          have hcd : c = '/' ∧ d = '/' := by
            simpa using h2
          exact ⟨t, by rw [hcd.1, hcd.2]⟩
    split_ifs <;> simp_all [List.isPrefixOf, String.toList]

theorem urlunparseL_http_isPrefix (netloc path params query fragment : Chars) :
    "http://".toList.isPrefixOf
      (urlunparseL "http".toList netloc path params query fragment) = true := by
  unfold urlunparseL
  split_ifs <;> apply urlunsplitL_http_isPrefix

theorem urlunparseL_https_isPrefix (netloc path params query fragment : Chars) :
    "https://".toList.isPrefixOf
      (urlunparseL "https".toList netloc path params query fragment) = true := by
  unfold urlunparseL
  split_ifs <;> apply urlunsplitL_https_isPrefix

/-- The scheme component of a successful `urlsplit` is the detected scheme
when there is one and the default otherwise. -/
theorem urlsplitE_scheme (u s₀ : Chars) (r : SplitResult)
    (h : urlsplitE u s₀ = .ok r) :
    r.scheme = match splitScheme (cleanUrl u) with
      | some (p, _) => p
      | none => s₀ := by
  unfold urlsplitE at h
  cases hss : splitScheme (cleanUrl u) with
  | none =>
    simp only [hss, bind, Except.bind] at h
    repeat' split at h
    all_goals try cases h
    all_goals rfl
  | some pr =>
    obtain ⟨p, rest⟩ := pr
    simp only [hss, bind, Except.bind] at h
    repeat' split at h
    all_goals try cases h
    all_goals rfl

/-- `urlparse` preserves the scheme of `urlsplit`. -/
theorem urlparseE_scheme (u s₀ : Chars) (r : ParseResult)
    (h : urlparseE u s₀ = .ok r) :
    r.scheme = match splitScheme (cleanUrl u) with
      | some (p, _) => p
      | none => s₀ := by
  unfold urlparseE at h
  cases hsp : urlsplitE u s₀ with
  | error e =>
    rw [hsp] at h
    simp only [bind, Except.bind] at h
    cases h
  | ok sr =>
    have hs := urlsplitE_scheme u s₀ sr hsp
    rw [hsp] at h
    simp only [bind, Except.bind] at h
    repeat' split at h
    all_goals try cases h
    all_goals exact hs

/-- A URL of the shape `http://…` parses with scheme `http`. -/
theorem urlparseE_scheme_http (t s₀ : Chars) (r : ParseResult)
    (h : urlparseE ('h' :: 't' :: 't' :: 'p' :: ':' :: '/' :: '/' :: t) s₀ = .ok r) :
    r.scheme = "http".toList := by
  have hs := urlparseE_scheme _ s₀ r h
  rw [cleanUrl_cons_http] at hs
  rw [splitScheme_cons_http] at hs
  exact hs

/-- A URL of the shape `https://…` parses with scheme `https`. -/
theorem urlparseE_scheme_https (t s₀ : Chars) (r : ParseResult)
    (h : urlparseE ('h' :: 't' :: 't' :: 'p' :: 's' :: ':' :: '/' :: '/' :: t) s₀
      = .ok r) :
    r.scheme = "https".toList := by
  have hs := urlparseE_scheme _ s₀ r h
  rw [cleanUrl_cons_https] at hs
  rw [splitScheme_cons_https] at hs
  exact hs

/-- Branch analysis of `urljoin` under an absolute `http(s)://` base: a
successful join returns the base (empty input), the input unchanged (scheme
mismatch — in which case the input carries an explicit scheme of its own), or
a string that itself starts with `http://` or `https://`. -/
theorem urljoinE_result (b u w : Chars)
    (hb : ("http://".toList.isPrefixOf b || "https://".toList.isPrefixOf b) = true)
    (h : urljoinE b u = .ok w) :
    (u = [] ∧ w = b) ∨
    (w = u ∧ (splitScheme (cleanUrl u)).isSome = true) ∨
    ("http://".toList.isPrefixOf w || "https://".toList.isPrefixOf w) = true := by
  have hb' : "http://".toList.isPrefixOf b = true ∨ "https://".toList.isPrefixOf b = true := by
    simpa using hb
  have hbne : b ≠ [] := by
    intro hb0
    rw [hb0] at hb
    simp [List.isPrefixOf, String.toList] at hb
  unfold urljoinE at h
  rw [if_neg hbne] at h
  by_cases hu : u = []
  · rw [if_pos hu] at h
    simp only [pure, Except.pure] at h
    injection h with h
    exact Or.inl ⟨hu, h.symm⟩
  rw [if_neg hu] at h
  cases hpb : urlparseE b [] with
  | error e =>
    simp only [hpb, bind, Except.bind, pure, Except.pure] at h
    cases h
  | ok pb =>
    have hbs : pb.scheme = "http".toList ∨ pb.scheme = "https".toList := by
      rcases hb' with hcase | hcase
      · obtain ⟨tb, htb⟩ := List.isPrefixOf_iff_prefix.mp hcase
        left
        refine urlparseE_scheme_http tb [] pb ?_
        rw [← htb] at hpb
        simpa [String.toList] using hpb
      · obtain ⟨tb, htb⟩ := List.isPrefixOf_iff_prefix.mp hcase
        right
        refine urlparseE_scheme_https tb [] pb ?_
        rw [← htb] at hpb
        simpa [String.toList] using hpb
    cases hpu : urlparseE u pb.scheme with
    | error e2 =>
      simp only [hpb, hpu, bind, Except.bind, pure, Except.pure] at h
      cases h
    | ok pu =>
      simp only [hpb, hpu, bind, Except.bind, pure, Except.pure] at h
      by_cases hmm2 : pu.scheme ≠ pb.scheme ∨ pu.scheme ∉ usesRelative
      · rw [if_pos hmm2] at h
        injection h with h
        refine Or.inr (Or.inl ⟨h.symm, ?_⟩)
        cases hscc : splitScheme (cleanUrl u) with
        | some pr => rfl
        | none =>
          exfalso
          have hps := urlparseE_scheme u pb.scheme pu hpu
          simp only [hscc] at hps
          rcases hmm2 with hne | hnr
          · exact hne hps
          · apply hnr
            rw [hps]
            rcases hbs with hcase | hcase <;> rw [hcase] <;> decide
      · rw [if_neg hmm2] at h
        have hsch : pu.scheme = pb.scheme := by
          by_contra hne
          exact hmm2 (Or.inl hne)
        refine Or.inr (Or.inr ?_)
        rcases hbs with hcase | hcase
        · rw [hcase] at hsch
          rw [hsch] at h
          repeat' split at h
          all_goals try injection h with h
          all_goals rw [← h]
          all_goals simp only [urlunparseL_http_isPrefix, Bool.true_or]
        · rw [hcase] at hsch
          rw [hsch] at h
          repeat' split at h
          all_goals try injection h with h
          all_goals rw [← h]
          all_goals simp only [urlunparseL_https_isPrefix, Bool.or_true]

/-! ## Claim-level results -/

/-! ### C2: the heuristic link fallback and the distinct-URL precondition -/

/-- A page whose heuristic link scan sees, in order, an anchor whose href is
the current URL itself (matching via `p=`) and a distinct anchor matching via
`page`. No pager button is present, so `go_to_next_page` reaches the
heuristic scan. -/
def c2page : Page where
  nextButtons := []
  anchors :=
    [{ href := some "http://h/list?p=1", displayed := true, enabled := true,
       navTarget := none },
     { href := some "http://h/list-page2", displayed := true, enabled := true,
       navTarget := none }]
  imgs := []

def c2site : Site := fun u =>
  if u = "http://h/list?p=1" ∨ u = "http://h/list-page2" then some c2page else none

/-- Claim C2 (code_bug): the spec requires "distinct from current URL" as a
hard precondition for every heuristic sub-check, but the Python condition
`href and href != current_url and 'page' in href.lower() or 'p=' in href.lower()`
parses as `(... and href != current_url and ...) or ('p=' in href.lower())`,
so an anchor whose href contains `p=` is navigated to even when it equals the
current URL. Here the heuristic navigates to the current URL itself
(`driver.get` of a non-distinct href) and returns it, shadowing a later
anchor that is distinct and matches `page`. -/
theorem c2_failing_eval :
    go_to_next_page c2site "http://h/list?p=1" = some "http://h/list?p=1" ∧
    heuristicCond "http://h/list?p=1" "http://h/list?p=1" = true ∧
    matchesHeuristicSelector
      { href := some "http://h/list-page2", displayed := true, enabled := true,
        navTarget := none } = true ∧
    "http://h/list-page2" ≠ "http://h/list?p=1" := by decide

/-! ### C3: totality of the URL classifier -/

/-- Claim C3 (counterexample): `get_absolute_url(None)` raises
`AttributeError` (`None.startswith`), so "toAbsolute never raises, including
on None" is false on the code. -/
theorem c3_counterexample :
    get_absolute_url "http://h/a" none = .error .attributeError := by decide

/-- Claim C3 (amended): `is_valid_url` returns `False` without raising on
`None`, the empty string, and `javascript:`/`mailto:` inputs, and
`get_absolute_url` returns an already-absolute (http/https-prefixed) string
unchanged without raising; but `get_absolute_url(None)` raises
`AttributeError`, and both operations can raise `ValueError` on a string
whose authority is malformed (e.g. an unbalanced IPv6 bracket). -/
theorem c3_amended_thm :
    (∀ base : String, is_valid_url base none = .ok false) ∧
    (∀ base : String, is_valid_url base (some "") = .ok false) ∧
    (∀ (base s : String), strStartsWith s "javascript:" = true →
      is_valid_url base (some s) = .ok false) ∧
    (∀ (base s : String), strStartsWith s "mailto:" = true →
      is_valid_url base (some s) = .ok false) ∧
    (∀ (base s : String), (strStartsWith s "http://" || strStartsWith s "https://") = true →
      get_absolute_url base (some s) = .ok s) ∧
    (∀ base : String, get_absolute_url base none = .error .attributeError) ∧
    is_valid_url "http://h/a" (some "http://[") = .error .valueError := by
  refine ⟨fun base => rfl, fun base => rfl, ?_, ?_, ?_, fun base => rfl, by decide⟩
  · intro base s h
    unfold is_valid_url
    simp [h, pure, Except.pure]
  · intro base s h
    unfold is_valid_url
    simp [h, pure, Except.pure]
  · intro base s h
    unfold get_absolute_url
    simp [h, pure, Except.pure]

/-- Witness for `c3_amended_thm` at concrete inputs. -/
theorem c3_amended_witness :
    is_valid_url "http://h/a" (some "javascript:void(0)") = .ok false ∧
    is_valid_url "http://h/a" (some "mailto:x@h") = .ok false ∧
    get_absolute_url "http://h/a" (some "http://h/b") = .ok "http://h/b" :=
  ⟨c3_amended_thm.2.2.1 "http://h/a" "javascript:void(0)" (by decide),
   c3_amended_thm.2.2.2.1 "http://h/a" "mailto:x@h" (by decide),
   c3_amended_thm.2.2.2.2.1 "http://h/a" "http://h/b" (by decide)⟩

/-! ### C4: cleanup on exit paths -/

/-- Claim C4 (counterexample): when `START_URL` is absent the `crawl` method
returns at lines 518-520, before the `try/finally`, so `cleanup` (closing the
Page Renderer) is not invoked on that abort path — yet the WebDriver was
already initialized by the constructor. -/
theorem c4_counterexample :
    (crawl (fun _ => none) (none, 10) 5 none).cleanupCalled = false := by decide

/-- Claim C4 (amended): for a truthy seed URL, `cleanup` is invoked on every
exit path of the guarded region — normal termination, page-cap termination,
exhaustion, and an abort (interrupt or uncaught error) at any step boundary;
only the missing/falsy-seed abort path skips it. -/
theorem c4_thm :
    ∀ (site : Site) (maxPages : Int) (fuel : Nat) (abortAt : Option Nat) (b : String),
      b ≠ "" → (crawl site (some b, maxPages) fuel abortAt).cleanupCalled = true := by
  intro site mp fuel ab b hb
  unfold crawl
  simp [hb]

/-- Witness for `c4_thm`. -/
theorem c4_witness :
    (crawl (fun _ => none) (some "http://h/", 0) 3 (some 1)).cleanupCalled = true :=
  c4_thm (fun _ => none) 0 3 (some 1) "http://h/" (by decide)

/-! ### C9: report generation iff images were found -/

/-- Claim C9: `generate_html_report` produces no document at all when the
image set is empty (it logs and returns), and produces one otherwise, so a
report exists iff at least one image was discovered. -/
theorem c9_thm :
    ∀ images : List String, (generate_html_report images).isSome = true ↔ images ≠ [] := by
  intro images
  unfold generate_html_report
  split <;> simp_all

/-- Witness for `c9_thm`. -/
theorem c9_witness :
    (generate_html_report ["http://h/i.png"]).isSome = true :=
  (c9_thm ["http://h/i.png"]).mpr (by decide)

/-! ### C10: invalid integer environment values abort construction -/

/-- Claim C10: if `MAX_PAGES` (or `PAGE_LOAD_TIMEOUT`) is set to a string that
is not a valid integer literal, `int()` raises `ValueError` inside `__init__`
(lines 32-33) and the constructor fails — independently of whether WebDriver
initialization would succeed (it is never reached: line 61 runs after the
parses), and with no silently substituted default (no `InitConfig` is
produced, so `crawl` can never run). -/
theorem c10_thm :
    (∀ (env : Env) (driverOk : Bool) (s : String),
      env "MAX_PAGES" = some s → pyInt? s = none →
      crawlerInit env driverOk = .error .valueError) ∧
    (∀ (env : Env) (driverOk : Bool) (t : String),
      env "PAGE_LOAD_TIMEOUT" = some t → pyInt? t = none →
      (env "MAX_PAGES" = none ∨ ∃ s n, env "MAX_PAGES" = some s ∧ pyInt? s = some n) →
      crawlerInit env driverOk = .error .valueError) := by
  constructor
  · intro env dok s hs hp
    unfold crawlerInit
    simp [hs, hp, throw, throwThe, MonadExceptOf.throw, bind, Except.bind]
  · intro env dok t ht hp hm
    unfold crawlerInit
    rcases hm with hm | ⟨s, n, hs, hn⟩
    · simp [hm, ht, hp, throw, throwThe, MonadExceptOf.throw, bind, Except.bind, pure,
        Except.pure]
    · simp [hs, hn, ht, hp, throw, throwThe, MonadExceptOf.throw, bind, Except.bind, pure,
        Except.pure]

/-- Witness for `c10_thm`: the environment `MAX_PAGES=abc`. -/
theorem c10_witness :
    crawlerInit (fun k => if k = "MAX_PAGES" then some "abc" else none) true
      = .error .valueError :=
  c10_thm.1 (fun k => if k = "MAX_PAGES" then some "abc" else none) true "abc"
    (by decide) (by decide)

/-! ### C1: scope of visited/cursor URLs — counterexample -/

/-- A page whose pager button (e.g. matched by `.next` or the configured
selector) links off-domain; neither `go_to_next_page`'s click path nor
`crawl` checks scope on that URL. -/
def c1page : Page where
  nextButtons :=
    [{ href := some "http://evil/x", displayed := true, enabled := true,
       navTarget := some "http://evil/x" }]
  anchors := []
  imgs := []

def c1evilPage : Page where
  nextButtons := []
  anchors := []
  imgs := []

def c1site : Site := fun u =>
  if u = "http://h/a" then some c1page
  else if u = "http://evil/x" then some c1evilPage
  else none

/-- Claim C1 (counterexample): a crawl seeded at `http://h/a` whose pager
button links to `http://evil/x` assigns that off-domain URL to the crawl
cursor and then adds it to the visited set: the visited set contains a URL
whose host (`evil`) differs from the seed's host (`h`), and which the
crawler's own scope check rejects. -/
theorem c1_counterexample :
    "http://evil/x" ∈ (crawl c1site (some "http://h/a", 10) 5 none).finalState.visited ∧
    is_valid_url "http://h/a" (some "http://evil/x") = .ok false ∧
    urlparseE "http://evil/x".toList []
      = .ok ⟨"http".toList, "evil".toList, "/x".toList, [], [], []⟩ ∧
    urlparseE "http://h/a".toList []
      = .ok ⟨"http".toList, "h".toList, "/a".toList, [], [], []⟩ := by decide

/-! ### C5: idempotence of `get_absolute_url` — counterexample -/

/-- Claim C5 (counterexample): with the seed URL `a/c` (any string accepted
by the code; `crawl` only requires truthiness) and input `x`,
`toAbsolute(x) = a/x` but `toAbsolute(toAbsolute(x)) = a/a/x`, so idempotence
fails as universally stated. -/
theorem c5_counterexample :
    get_absolute_url "a/c" (some "x") = .ok "a/x" ∧
    get_absolute_url "a/c" (some "a/x") = .ok "a/a/x" ∧
    ("a/a/x" : String) ≠ "a/x" := by decide

/-! ### C8: image harvesting — counterexample -/

/-- A page with a single `img` whose `src` attribute is present but empty and
whose `data-src` holds a relative image URL. -/
def c8page : Page where
  nextButtons := []
  anchors := []
  imgs := [{ src := some "", dataSrc := some "/i.png", stale := false }]

def c8site : Site := fun u => if u = "http://h/" then some c8page else none

/-- Claim C8 (counterexample): the harvester falls back to the lazy-load
attribute whenever the primary is falsy, not only when it is absent: here the
primary `src` is present (the empty string) yet the harvested URL comes from
`data-src` (the primary itself cannot produce it). -/
theorem c8_counterexample :
    extract_images c8site "http://h/" "http://h/" = ["http://h/i.png"] ∧
    c8page.imgs = [{ src := some "", dataSrc := some "/i.png", stale := false }] ∧
    get_absolute_url "http://h/" (some "") ≠ .ok "http://h/i.png" := by decide

/-! ### C8: image harvesting — amended characterization -/

/-- Membership in the insert used to model `set.add`. -/
theorem mem_setInsert {u v : String} {acc : List String} :
    v ∈ (if u ∈ acc then acc else acc ++ [u]) ↔ v ∈ acc ∨ v = u := by
  split
  · rename_i h
    exact ⟨Or.inl, fun hv => hv.elim id (fun e => e ▸ h)⟩
  · simp [List.mem_append]

/-- What it takes for one `img` element to contribute `u` to the harvest:
its attribute reads do not raise, the `src`-or-`data-src` fallback yields a
truthy value, the scope check accepts it and resolution yields `u`. -/
def imgYields (base : String) (img : ImgElement) (u : String) : Prop :=
  img.stale = false ∧ ∃ s, pySrcOr img = some s ∧ s ≠ "" ∧
    is_valid_url base (some s) = .ok true ∧ get_absolute_url base (some s) = .ok u

theorem mem_addImage {base : String} {acc : List String} {img : ImgElement}
    {u : String} :
    u ∈ addImage base acc img ↔ u ∈ acc ∨ imgYields base img u := by
  unfold addImage imgYields
  cases hst : img.stale with
  | true => simp [hst]
  | false =>
    cases hs : pySrcOr img with
    | none => simp [hs]
    | some s =>
      by_cases hse : s = ""
      · subst hse
        simp [hs]
      · have hbe : (s == "") = false := by simp [hse]
        cases hv : is_valid_url base (some s) with
        | error e => simp [hs, hbe, hv, hse]
        | ok b =>
          cases b with
          | false => simp [hs, hbe, hv, hse]
          | true =>
            cases hg : get_absolute_url base (some s) with
            | error e => simp [hs, hbe, hv, hg, hse]
            | ok w =>
              simp [hs, hbe, hv, hg, hse, mem_setInsert, eq_comm]

theorem mem_foldl_addImage {base : String} (l : List ImgElement) (acc : List String)
    (u : String) :
    u ∈ l.foldl (addImage base) acc ↔ u ∈ acc ∨ ∃ img ∈ l, imgYields base img u := by
  induction l generalizing acc with
  | nil => simp
  | cons img tl ih =>
    rw [List.foldl_cons, ih, mem_addImage]
    constructor
    · rintro ((h | h) | ⟨i, hi, hy⟩)
      · exact Or.inl h
      · exact Or.inr ⟨img, List.mem_cons_self img tl, h⟩
      · exact Or.inr ⟨i, List.mem_cons_of_mem img hi, hy⟩
    · rintro (h | ⟨i, hi, hy⟩)
      · exact Or.inl (Or.inl h)
      · rcases List.mem_cons.1 hi with h' | hi'
        · exact Or.inl (Or.inr (h' ▸ hy))
        · exact Or.inr ⟨i, hi', hy⟩

/-- Claim C8 (amended): a URL is harvested from a loaded page iff some `img`
element yields it: its attribute reads do not raise (a failing element is
skipped, never aborting the rest), the primary `src` is used unless it is
falsy (absent or empty) in which case `data-src` is used, the resulting value
passes the URL Classifier's scope check, and its absolute resolution is the
harvested URL. -/
theorem c8_amended_thm :
    ∀ (site : Site) (base url u : String) (pg : Page), site url = some pg →
      (u ∈ extract_images site base url ↔
        ∃ img ∈ pg.imgs, img.stale = false ∧ ∃ s, pySrcOr img = some s ∧ s ≠ "" ∧
          is_valid_url base (some s) = .ok true ∧
          get_absolute_url base (some s) = .ok u) := by
  intro site base url u pg h
  unfold extract_images
  rw [h]
  rw [mem_foldl_addImage]
  simp [imgYields]

/-- Witness for `c8_amended_thm` on a concrete page. -/
theorem c8_witness :
    "http://h/i.png" ∈ extract_images c8site "http://h/" "http://h/" :=
  (c8_amended_thm c8site "http://h/" "http://h/" "http://h/i.png" c8page rfl).mpr
    ⟨{ src := some "", dataSrc := some "/i.png", stale := false }, by decide, rfl,
     "/i.png", rfl, by decide, by decide, by decide⟩

/-! ### C6 / C7: the crawl loop invariants -/

/-- Exhaustive case analysis of one loop iteration. -/
theorem crawlStep_characterization (site : Site) (base : String) (maxPages : Int)
    (st : CrawlState) :
    (crawlStep site base maxPages st = .stop .emptyCursor st ∧ st.current = "") ∨
    (crawlStep site base maxPages st = .stop .capReached st ∧
      ¬(maxPages = 0 ∨ st.pageCount < maxPages)) ∨
    (crawlStep site base maxPages st = .stop .revisit st ∧ st.current ∈ st.visited) ∨
    (∃ st', crawlStep site base maxPages st = .stop .exhausted st' ∧
      st'.visited = st.visited ++ [st.current] ∧ st'.pageCount = st.pageCount ∧
      st.current ∉ st.visited ∧ (maxPages = 0 ∨ st.pageCount < maxPages) ∧
      st.current ≠ "") ∨
    (∃ st', crawlStep site base maxPages st = .next st' ∧
      st'.visited = st.visited ++ [st.current] ∧ st'.pageCount = st.pageCount + 1 ∧
      st.current ∉ st.visited ∧ (maxPages = 0 ∨ st.pageCount < maxPages) ∧
      st.current ≠ "") := by
  by_cases h1 : st.current = ""
  · refine Or.inl ⟨?_, h1⟩
    unfold crawlStep
    simp [h1]
  by_cases h2 : maxPages = 0 ∨ st.pageCount < maxPages
  case neg =>
    refine Or.inr (Or.inl ⟨?_, h2⟩)
    unfold crawlStep
    simp [h1, h2]
  by_cases h3 : st.current ∈ st.visited
  · refine Or.inr (Or.inr (Or.inl ⟨?_, h3⟩))
    unfold crawlStep
    simp [h1, h2, h3]
  · cases hadv : advancedNext site st with
    | some n =>
      refine Or.inr (Or.inr (Or.inr (Or.inr
        ⟨{ visited := st.visited ++ [st.current],
           images := listUnion st.images (extract_images site base st.current),
           current := n, pageCount := st.pageCount + 1 }, ?_, rfl, rfl, h3, h2, h1⟩)))
      unfold crawlStep
      simp [h1, h2, h3, hadv]
    | none =>
      cases hfb : fallbackCandidates site base st with
      | nil =>
        refine Or.inr (Or.inr (Or.inr (Or.inl
          ⟨{ visited := st.visited ++ [st.current],
             images := listUnion st.images (extract_images site base st.current),
             current := st.current, pageCount := st.pageCount },
           ?_, rfl, rfl, h3, h2, h1⟩)))
        unfold crawlStep
        simp [h1, h2, h3, hadv, hfb]
      | cons l ls =>
        refine Or.inr (Or.inr (Or.inr (Or.inr
          ⟨{ visited := st.visited ++ [st.current],
             images := listUnion st.images (extract_images site base st.current),
             current := l, pageCount := st.pageCount + 1 }, ?_, rfl, rfl, h3, h2, h1⟩)))
        unfold crawlStep
        simp [h1, h2, h3, hadv, hfb]

/-- The cap invariant: starting from a state whose visited count equals its
page counter and is within the cap, the visited set never outgrows the cap. -/
theorem crawlLoop_capBound (site : Site) (base : String) (maxPages : Int)
    (hm : 0 < maxPages) :
    ∀ (fuel : Nat) (st : CrawlState), 0 ≤ st.pageCount →
      st.visited.length = st.pageCount.toNat → st.pageCount ≤ maxPages →
      ((crawlLoop site base maxPages fuel st).visited).length ≤ maxPages.toNat := by
  intro fuel
  induction fuel with
  | zero =>
    intro st h0 hlen hle
    rw [crawlLoop]
    omega
  | succ n ih =>
    intro st h0 hlen hle
    rw [crawlLoop]
    rcases crawlStep_characterization site base maxPages st with
      ⟨heq, _⟩ | ⟨heq, _⟩ | ⟨heq, _⟩ |
      ⟨st', heq, hvis, hpc, _, hcond, _⟩ | ⟨st', heq, hvis, hpc, _, hcond, _⟩ <;>
      simp only [heq]
    · omega
    · omega
    · omega
    · have hl : st'.visited.length = st.visited.length + 1 := by
        rw [hvis, List.length_append]
        rfl
      have hlt : st.pageCount < maxPages := by
        rcases hcond with h | h
        · omega
        · exact h
      omega
    · have hlt : st.pageCount < maxPages := by
        rcases hcond with h | h
        · omega
        · exact h
      have hlen' : st'.visited.length = st'.pageCount.toNat := by
        rw [hvis, List.length_append, hlen, hpc]
        simp only [List.length_singleton]
        omega
      exact ih st' (by omega) hlen' (by omega)

/-- Claim C6: when `MAX_PAGES > 0`, the visited set never exceeds `MAX_PAGES`
at any point of the traversal (every intermediate point is the final state of
a run with smaller fuel, and the bound holds for every fuel); when
`MAX_PAGES = 0`, the loop-condition exit for the page cap can never fire, so
the cap imposes no bound on the traversal. -/
theorem c6_thm :
    ∀ (site : Site) (base : String) (maxPages : Int) (fuel : Nat),
      (0 < maxPages →
        ((crawlLoop site base maxPages fuel (initState base)).visited).length
          ≤ maxPages.toNat) ∧
      (maxPages = 0 → ∀ (st st' : CrawlState) (r : StopReason),
        crawlStep site base maxPages st = .stop r st' → r ≠ .capReached) := by
  intro site base maxPages fuel
  constructor
  · intro hm
    exact crawlLoop_capBound site base maxPages hm fuel (initState base)
      (by simp [initState]) (by simp [initState]) (by simp [initState]; omega)
  · intro h0 st st' r heq
    rcases crawlStep_characterization site base maxPages st with
      ⟨heq', _⟩ | ⟨heq', hc⟩ | ⟨heq', _⟩ | ⟨st'', heq', _⟩ | ⟨st'', heq', _⟩ <;>
      rw [heq'] at heq
    · cases heq; decide
    · exact absurd (Or.inl h0) hc
    · cases heq; decide
    · cases heq; decide
    · cases heq

/-- Witness for `c6_thm` at a concrete site and cap. -/
theorem c6_witness :
    ((crawlLoop (fun _ => none) "http://h/" 3 2 (initState "http://h/")).visited).length
      ≤ (3 : Int).toNat :=
  (c6_thm (fun _ => none) "http://h/" 3 2).1 (by decide)

/-- Nodup is preserved by the loop. -/
theorem crawlLoop_nodup (site : Site) (base : String) (maxPages : Int) :
    ∀ (fuel : Nat) (st : CrawlState), st.visited.Nodup →
      ((crawlLoop site base maxPages fuel st).visited).Nodup := by
  intro fuel
  induction fuel with
  | zero =>
    intro st h
    rw [crawlLoop]
    exact h
  | succ n ih =>
    intro st h
    rw [crawlLoop]
    rcases crawlStep_characterization site base maxPages st with
      ⟨heq, _⟩ | ⟨heq, _⟩ | ⟨heq, _⟩ |
      ⟨st', heq, hvis, _, hnm, _, _⟩ | ⟨st', heq, hvis, _, hnm, _, _⟩ <;>
      simp only [heq]
    · exact h
    · exact h
    · exact h
    · rw [hvis]
      simp [List.nodup_append, h, hnm]
    · refine ih st' ?_
      rw [hvis]
      simp [List.nodup_append, h, hnm]

/-- Claim C7: the sequence of pages visited (rendered and harvested) — the
visited set in visit order — never repeats a URL; moreover, a current URL
already in the visited set makes the step stop with `revisit` (before any
harvest), and the fallback link scan only offers links that are neither
already visited nor the current URL. -/
theorem c7_thm :
    ∀ (site : Site) (base : String) (maxPages : Int) (fuel : Nat),
      ((crawlLoop site base maxPages fuel (initState base)).visited).Nodup ∧
      (∀ st : CrawlState, st.current ≠ "" → (maxPages = 0 ∨ st.pageCount < maxPages) →
        st.current ∈ st.visited →
        crawlStep site base maxPages st = .stop .revisit st) ∧
      (∀ (st : CrawlState) (l : String), l ∈ fallbackCandidates site base st →
        l ∉ st.visited ∧ l ≠ st.current) := by
  intro site base maxPages fuel
  refine ⟨crawlLoop_nodup site base maxPages fuel (initState base) (by simp [initState]),
    ?_, ?_⟩
  · intro st h1 h2 h3
    unfold crawlStep
    simp [h1, h2, h3]
  · intro st l hl
    have hc := (List.mem_filter.1 hl).2
    simp only [Bool.not_eq_true'] at hc
    have hnotmem : l ∉ st.visited ++ [st.current] := by
      intro hmem
      have ht : (st.visited ++ [st.current]).contains l = true := by simpa using hmem
      rw [ht] at hc
      cases hc
    constructor
    · intro hmem
      exact hnotmem (List.mem_append.2 (Or.inl hmem))
    · intro hcur
      exact hnotmem (List.mem_append.2 (Or.inr (by simp [hcur])))

/-- Witness for `c7_thm`: a revisited cursor stops the loop. -/
theorem c7_witness :
    crawlStep (fun _ => none) "http://h/" 0 ⟨["http://h/"], [], "http://h/", 1⟩
      = .stop .revisit ⟨["http://h/"], [], "http://h/", 1⟩ :=
  (c7_thm (fun _ => none) "http://h/" 0 0).2.1 ⟨["http://h/"], [], "http://h/", 1⟩
    (by decide) (Or.inl rfl) (by decide)

/-! ### C5: idempotence — amended -/

/-- Claim C5 (amended): `get_absolute_url` is idempotent whenever the
configured seed URL is absolute (`http://`- or `https://`-prefixed):
whatever it returns is returned unchanged when fed back in; in particular an
already-absolute URL is returned unchanged. With a relative seed, idempotence
can fail (`c5_counterexample`). -/
theorem get_absolute_url_some (base u : String) :
    get_absolute_url base (some u) =
      (if (strStartsWith u "http://" || strStartsWith u "https://") = true then pure u
       else do
         let w ← urljoinE base.toList u.toList
         pure (String.mk w)) := rfl

theorem c5_amended_thm :
    ∀ (base u v : String),
      (strStartsWith base "http://" || strStartsWith base "https://") = true →
      get_absolute_url base (some u) = .ok v →
      get_absolute_url base (some v) = .ok v := by
  intro base u v hb h
  rw [get_absolute_url_some] at h ⊢
  by_cases hu : (strStartsWith u "http://" || strStartsWith u "https://") = true
  · rw [if_pos hu] at h
    simp only [pure, Except.pure] at h
    injection h with h
    subst h
    rw [if_pos hu]
    rfl
  · rw [if_neg hu] at h
    cases hj : urljoinE base.toList u.toList with
    | error e =>
      simp only [hj, bind, Except.bind] at h
      cases h
    | ok w =>
      simp only [hj, bind, Except.bind, pure, Except.pure] at h
      injection h with h
      have hbl : ("http://".toList.isPrefixOf base.toList
          || "https://".toList.isPrefixOf base.toList) = true := hb
      rcases urljoinE_result base.toList u.toList w hbl hj with
        ⟨hue, hwb⟩ | ⟨hwu, _⟩ | hpre
      · have hv : v = base := by
          rw [← h, hwb]
          exact rfl
        subst hv
        rw [if_pos hb]
        exact rfl
      · have hv : v = u := by
          rw [← h, hwu]
          exact rfl
        subst hv
        rw [if_neg hu]
        simp only [hj, bind, Except.bind, pure, Except.pure]
        rw [hwu]
        exact rfl
      · have hcond : (strStartsWith v "http://" || strStartsWith v "https://") = true := by
          rw [← h]
          exact hpre
        rw [if_pos hcond]
        rw [← h]
        exact rfl

/-- Witness for `c5_amended_thm`: resolving `b` against seed
`http://h/a` gives `http://h/b`, and resolving that again returns it
unchanged. -/
theorem c5_witness :
    get_absolute_url "http://h/a" (some "http://h/b") = .ok "http://h/b" :=
  c5_amended_thm "http://h/a" "b" "http://h/b" (by decide) (by decide)

/-! ### C1: scope of fallback-selected URLs — amended -/

/-- A string that starts with `http://` or `https://` has a detectable
scheme after cleaning. -/
theorem splitScheme_isSome_of_http (s : String)
    (h : (strStartsWith s "http://" || strStartsWith s "https://") = true) :
    (splitScheme (cleanUrl s.toList)).isSome = true := by
  have h' : "http://".toList <+: s.toList ∨ "https://".toList <+: s.toList := by
    simpa [strStartsWith] using h
  rcases h' with hc | hc
  · obtain ⟨t, ht⟩ := hc
    rw [← ht]
    simp only [String.toList, List.cons_append, List.nil_append]
    rw [cleanUrl_cons_http, splitScheme_cons_http]
    rfl
  · obtain ⟨t, ht⟩ := hc
    rw [← ht]
    simp only [String.toList, List.cons_append, List.nil_append]
    rw [cleanUrl_cons_https, splitScheme_cons_https]
    rfl

theorem is_valid_url_some (base u : String) :
    is_valid_url base (some u) =
      (if (u == "" || strStartsWith u "javascript:" || strStartsWith u "mailto:") = true
       then pure false
       else do
         let resolved ←
           if (strStartsWith u "http://" || strStartsWith u "https://") = true
           then pure u.toList
           else urljoinE base.toList u.toList
         let bp ← urlparseE base.toList []
         let up ← urlparseE resolved []
         pure (up.netloc == bp.netloc)) := rfl

/-- When the classifier accepts a candidate (with an absolute http(s) seed)
and resolution succeeds, the stored URL parses successfully with the same
host as the seed and carries a scheme of its own. -/
theorem classifier_scope (base cand u : String) (pb : ParseResult)
    (hb : (strStartsWith base "http://" || strStartsWith base "https://") = true)
    (hpb : urlparseE base.toList [] = .ok pb)
    (hv : is_valid_url base (some cand) = .ok true)
    (hg : get_absolute_url base (some cand) = .ok u) :
    ∃ pu : ParseResult, urlparseE u.toList [] = .ok pu ∧ pu.netloc = pb.netloc ∧
      (splitScheme (cleanUrl u.toList)).isSome = true := by
  rw [is_valid_url_some] at hv
  rw [get_absolute_url_some] at hg
  by_cases hguard : (cand == "" || strStartsWith cand "javascript:"
      || strStartsWith cand "mailto:") = true
  · rw [if_pos hguard] at hv
    simp only [pure, Except.pure] at hv
    cases hv
  rw [if_neg hguard] at hv
  by_cases habs : (strStartsWith cand "http://" || strStartsWith cand "https://") = true
  · rw [if_pos habs] at hv hg
    simp only [pure, Except.pure] at hg
    injection hg with hg
    subst hg
    simp only [hpb, bind, Except.bind, pure, Except.pure] at hv
    cases hpu : urlparseE cand.toList [] with
    | error e =>
      simp only [hpu] at hv
      cases hv
    | ok up =>
      simp only [hpu] at hv
      injection hv with hv
      exact ⟨up, rfl, eq_of_beq hv, splitScheme_isSome_of_http cand habs⟩
  · rw [if_neg habs] at hv hg
    cases hj : urljoinE base.toList cand.toList with
    | error e =>
      simp only [hj, bind, Except.bind] at hv
      cases hv
    | ok w =>
      simp only [hj, bind, Except.bind, pure, Except.pure, hpb] at hv hg
      injection hg with hg
      subst hg
      cases hpw : urlparseE w [] with
      | error e =>
        simp only [hpw] at hv
        cases hv
      | ok pw =>
        simp only [hpw] at hv
        injection hv with hv
        refine ⟨pw, hpw, eq_of_beq hv, ?_⟩
        rcases urljoinE_result base.toList cand.toList w hb hj with
          ⟨hce, hwb⟩ | ⟨hwu, hsome⟩ | hpre
        · rw [hwb]
          exact splitScheme_isSome_of_http base hb
        · rw [hwu]
          exact hsome
        · exact splitScheme_isSome_of_http (String.mk w) hpre

/-- What it takes for one anchor to contribute `u` to the link set. -/
def linkYields (base : String) (a : Element) (u : String) : Prop :=
  ∃ cand, a.href = some cand ∧ cand ≠ "" ∧
    is_valid_url base (some cand) = .ok true ∧
    get_absolute_url base (some cand) = .ok u

theorem mem_addLink {base : String} {acc : List String} {a : Element} {u : String} :
    u ∈ addLink base acc a ↔ u ∈ acc ∨ linkYields base a u := by
  unfold addLink linkYields
  cases hh : a.href with
  | none => simp [hh]
  | some cand =>
    by_cases hce : cand = ""
    · subst hce
      simp [hh]
    · have hbe : (cand == "") = false := by simp [hce]
      cases hv : is_valid_url base (some cand) with
      | error e => simp [hh, hbe, hv, hce]
      | ok bl =>
        cases bl with
        | false => simp [hh, hbe, hv, hce]
        | true =>
          cases hg : get_absolute_url base (some cand) with
          | error e => simp [hh, hbe, hv, hg, hce]
          | ok w => simp [hh, hbe, hv, hg, hce, mem_setInsert, eq_comm]

theorem mem_foldl_addLink {base : String} (l : List Element) (acc : List String)
    (u : String) :
    u ∈ l.foldl (addLink base) acc ↔ u ∈ acc ∨ ∃ a ∈ l, linkYields base a u := by
  induction l generalizing acc with
  | nil => simp
  | cons a tl ih =>
    rw [List.foldl_cons, ih, mem_addLink]
    constructor
    · rintro ((h | h) | ⟨i, hi, hy⟩)
      · exact Or.inl h
      · exact Or.inr ⟨a, List.mem_cons_self a tl, h⟩
      · exact Or.inr ⟨i, List.mem_cons_of_mem a hi, hy⟩
    · rintro (h | ⟨i, hi, hy⟩)
      · exact Or.inl (Or.inl h)
      · rcases List.mem_cons.1 hi with h' | hi'
        · exact Or.inl (Or.inr (h' ▸ hy))
        · exact Or.inr ⟨i, hi', hy⟩

/-- Claim C1 (amended): with an absolute http(s) seed, every URL produced by
the same-domain link extraction — the set from which the fallback cursor
assignment (and only it) draws, as the second conjunct states — parses
successfully, has exactly the seed's host, and carries an explicit scheme
(is absolute). URLs assigned to the cursor by the pagination strategy are
not scope-checked (see `c1_counterexample`), and the seed itself is in-scope
by definition. -/
theorem c1_amended_thm :
    ∀ (site : Site) (base : String),
      (∀ (cur u : String) (pb : ParseResult),
        (strStartsWith base "http://" || strStartsWith base "https://") = true →
        urlparseE base.toList [] = .ok pb →
        u ∈ extract_links site base cur →
        ∃ pu : ParseResult, urlparseE u.toList [] = .ok pu ∧ pu.netloc = pb.netloc ∧
          (splitScheme (cleanUrl u.toList)).isSome = true) ∧
      (∀ (st : CrawlState) (l : String), l ∈ fallbackCandidates site base st →
        l ∈ extract_links site base st.current) := by
  intro site base
  constructor
  · intro cur u pb hb hpb hmem
    unfold extract_links at hmem
    cases hsite : site cur with
    | none =>
      rw [hsite] at hmem
      cases hmem
    | some pg =>
      rw [hsite] at hmem
      rw [mem_foldl_addLink] at hmem
      rcases hmem with h0 | ⟨a, _, cnd, hhref, hne, hv, hg⟩
      · cases h0
      · exact classifier_scope base cnd u pb hb hpb hv hg
  · intro st l hl
    exact (List.mem_filter.1 hl).1

/-- Witness page for `c1_amended_thm`: the seed page links to `/p2`. -/
def c1wpage : Page where
  nextButtons := []
  anchors := [{ href := some "/p2", displayed := true, enabled := true, navTarget := none }]
  imgs := []

def c1wsite : Site := fun u => if u = "http://h/" then some c1wpage else none

/-- Witness for `c1_amended_thm`: the extracted link `http://h/p2` parses
with the seed's host `h` and carries a scheme. -/
theorem c1_witness :
    ∃ pu : ParseResult, urlparseE "http://h/p2".toList [] = .ok pu ∧
      pu.netloc = ParseResult.netloc ⟨"http".toList, "h".toList, "/".toList, [], [], []⟩ ∧
      (splitScheme (cleanUrl "http://h/p2".toList)).isSome = true :=
  (c1_amended_thm c1wsite "http://h/").1 "http://h/" "http://h/p2"
    ⟨"http".toList, "h".toList, "/".toList, [], [], []⟩ (by decide) (by decide) (by decide)

end Crawler
